import Mathlib

/-!
Shallow embedding of the filter-join-rank engine of `src/app.py`
(a Streamlit dashboard over four pandas DataFrames), together with
theorems settling the specification claims.

Modelling conventions:
* A pandas DataFrame becomes a typed list of rows.  Optional columns
  (`Category` in the TVL table, `Market Cap (USD)` / `Current Price (USD)`
  in the market table) are modelled by a presence flag on the table plus an
  `Option` field on each row; a `none` cell models a null/NaN cell.
* The required `Protocol` column of the TVL table also gets a presence
  flag, because `app.py` line 81 reads it unconditionally and a missing
  column raises a `KeyError` (the MissingKeyColumn error of the spec).
* Python numbers are modelled as `ℚ`; both `None` and float NaN amounts
  are modelled as `none` (`format_currency` treats the two identically via
  `amount is None or pd.isna(amount)`).
* Raising an exception is modelled by `Except String`; the engine either
  returns all derived outputs or an error, so no partial result exists.
* Streamlit's `multiselect` only ever returns a subset of its `options`
  argument; theorems about whole-engine runs therefore carry the
  hypothesis that the selected categories are drawn from the category
  choices computed on lines 84-87.
-/

/-- Row of the TVL table: `Protocol`, optional `Category`, `TVL (USD)`. -/
structure TvlRow where
  protocol : String
  category : Option String
  tvl : Option ℚ
deriving DecidableEq, Repr

/-- The TVL table (`df_protocols_tvl`), with column-presence flags for the
required `Protocol` column and the optional `Category` column. -/
structure TvlTable where
  hasProtocol : Bool
  hasCategory : Bool
  rows : List TvlRow
deriving DecidableEq, Repr

/-- Row of the revenue table (`df_protocols_revenue`). -/
structure RevRow where
  protocol : String
  rev24h : Option ℚ
  rev7d : Option ℚ
  rev30d : Option ℚ
  revTotal : Option ℚ
deriving DecidableEq, Repr

/-- Row of the fees table (`df_protocols_fees`). -/
structure FeeRow where
  protocol : String
  fee24h : Option ℚ
  fee7d : Option ℚ
  fee30d : Option ℚ
  feeTotal : Option ℚ
deriving DecidableEq, Repr

/-- Row of the market-data table (`df_protocols_market_data`). -/
structure MarketRow where
  protocol : String
  marketCap : Option ℚ
  price : Option ℚ
deriving DecidableEq, Repr

/-- The market table, with presence flags for its two optional columns. -/
structure MarketTable where
  hasMarketCap : Bool
  hasPrice : Bool
  rows : List MarketRow
deriving DecidableEq, Repr

/-- Floor of a non-negative rational as a natural number (numerator divided
by denominator); written on the `Rat` structure directly so that proofs can
evaluate it by kernel reduction. -/
def ratFloorNat (q : ℚ) : Nat := q.num.toNat / q.den

/-- Two-decimal fixed-point rendering of a rational, the embedding of the
Python two-decimal f-string format of lines 54-60 of `app.py`.  Rounding is at
the hundredths; every value this development evaluates it on is an exact
multiple of 1/100, where Python's float formatting agrees. -/
def formatFixed2 (q : ℚ) : String :=
  let a : ℚ := if q < 0 then -q else q
  let m : Nat := ratFloorNat (a * 100 + 1 / 2)
  let sign := if q < 0 then "-" else ""
  sign ++ toString (m / 100) ++ "." ++
    (if m % 100 < 10 then "0" else "") ++ toString (m % 100)

/-- Embedding of `format_currency` (`app.py` lines 50-60).  The argument
`none` models both `None` and NaN (`amount is None or pd.isna(amount)`). -/
def format_currency : Option ℚ → String
  | none => "$0"
  | some amount =>
      if amount = 0 then "$0"
      else if amount ≥ 1000000000 then "$" ++ formatFixed2 (amount / 1000000000) ++ "B"
      else if amount ≥ 1000000 then "$" ++ formatFixed2 (amount / 1000000) ++ "M"
      else if amount ≥ 1000 then "$" ++ formatFixed2 (amount / 1000) ++ "K"
      else "$" ++ formatFixed2 amount

/-- Sorted insertion of a string into a list, ascending. -/
def insertStr (x : String) : List String → List String
  | [] => [x]
  | y :: ys => if x < y then x :: y :: ys else y :: insertStr x ys

/-- Insertion sort of strings, ascending — the embedding of Python's
`sorted` on a list of strings. -/
def sortStrings (l : List String) : List String := l.foldr insertStr []

/-- Error message raised by `df_protocols_tvl['Protocol']` when the TVL
table has no `Protocol` column (`app.py` line 81). -/
def protocolKeyError : String := "KeyError: Protocol"

/-- Error message raised by `filtered_tvl['Category'].isin(...)` when the
TVL table has no `Category` column (`app.py` line 92). -/
def categoryKeyError : String := "KeyError: Category"

/-- `sorted(df_protocols_tvl['Protocol'].unique())` (`app.py` line 81):
the option list of the protocol multiselect.  Raises a `KeyError` when the
`Protocol` column is missing. -/
def protocolChoices (t : TvlTable) : Except String (List String) :=
  if t.hasProtocol then .ok (sortStrings ((t.rows.map (·.protocol)).dedup))
  else .error protocolKeyError

/-- `sorted(df_protocols_tvl['Category'].dropna().unique())` guarded by the
column-presence test (`app.py` lines 84-86): the option list of the
category multiselect; the empty list when the column is missing. -/
def categoriesOf (t : TvlTable) : List String :=
  if t.hasCategory then sortStrings ((t.rows.filterMap (·.category)).dedup)
  else []

/-- Step 1 of the filter (`app.py` line 90):
`df_protocols_tvl[df_protocols_tvl['Protocol'].isin(selected_protocols)]`. -/
def filterByProtocol (rows : List TvlRow) (selProts : List String) : List TvlRow :=
  rows.filter fun r => decide (r.protocol ∈ selProts)

/-- The membership test of `app.py` line 92,
`filtered_tvl['Category'].isin(selected_categories)`, on one row; a null
(`NaN`) category is never a member, as in pandas. -/
def categoryMem (r : TvlRow) (selCats : List String) : Bool :=
  match r.category with
  | some c => decide (c ∈ selCats)
  | none => false

/-- Steps 1-2 of the filter (`app.py` lines 90-92): protocol filter, then
— only when `selected_categories` is non-empty — the category filter.
Reading the `Category` column of a table that lacks it raises. -/
def filteredTvlE (t : TvlTable) (selProts selCats : List String) :
    Except String (List TvlRow) :=
  let f1 := filterByProtocol t.rows selProts
  if selCats.isEmpty then .ok f1
  else if t.hasCategory then .ok (f1.filter fun r => categoryMem r selCats)
  else .error categoryKeyError

/-- The filtered TVL rows that `app.py` lines 90-92 produce on the
non-raising path (used to state what `filteredTvlE` returns). -/
def tvlAfterFilters (t : TvlTable) (selProts selCats : List String) : List TvlRow :=
  let f1 := filterByProtocol t.rows selProts
  if selCats.isEmpty then f1 else f1.filter fun r => categoryMem r selCats

/-- Row of the overview table produced by
`pd.merge(filtered_tvl, filtered_market, on='Protocol', how='left')`
(`app.py` line 127).  An unmatched TVL row gets null market columns, which
pandas renders the same way as a matched row whose cells are null. -/
structure OverviewRow where
  protocol : String
  category : Option String
  tvl : Option ℚ
  marketCap : Option ℚ
  price : Option ℚ
deriving DecidableEq, Repr

/-- Left join of the filtered TVL rows with the filtered market rows on
`Protocol` (`app.py` line 127): each TVL row is paired with every matching
market row, or with null market columns when no match exists. -/
def mergeLeft : List TvlRow → List MarketRow → List OverviewRow
  | [], _ => []
  | t :: ts, fmkt =>
      (let ms := fmkt.filter fun m => decide (m.protocol = t.protocol)
       if ms.isEmpty then [⟨t.protocol, t.category, t.tvl, none, none⟩]
       else ms.map fun m => ⟨t.protocol, t.category, t.tvl, m.marketCap, m.price⟩) ++
      mergeLeft ts fmkt

/-- Stable insertion for a descending sort by a rational key: the new
element goes in front of the first element whose key is not larger. -/
def insertDescBy (key : α → ℚ) (x : α) : List α → List α
  | [] => [x]
  | y :: ys => if key y ≤ key x then x :: y :: ys else y :: insertDescBy key x ys

/-- Stable descending sort by a rational key. -/
def sortDescBy (key : α → ℚ) (l : List α) : List α := l.foldr (insertDescBy key) []

/-- Embedding of pandas `DataFrame.nlargest(n, column)` (`app.py` lines
141, 153 and 162): rows whose ranking cell is null are dropped, the rest
are sorted descending by the ranking column — ties kept in original order
(`keep='first'`) — and the first `n` are returned. -/
def nlargestBy (n : Nat) (key : α → Option ℚ) (l : List α) : List α :=
  (sortDescBy (fun r => (key r).getD 0) (l.filter fun r => (key r).isSome)).take n

/-- All outputs the engine derives from the four tables and the two
selections: the four filtered tables (`app.py` lines 90-96), the three KPI
values and the displayed strings (lines 99-117), the overview join (line
127) and the three top-10 rankings (lines 141, 153, 162). -/
structure Outputs where
  filtered_tvl : List TvlRow
  filtered_fees : List FeeRow
  filtered_revenue : List RevRow
  filtered_market : List MarketRow
  protocolCount : Nat
  totalTVL : ℚ
  totalMarketCap : ℚ
  totalTVLDisplay : String
  totalMarketCapDisplay : String
  overview : List OverviewRow
  top_tvl : List TvlRow
  top_revenue : List RevRow
  top_fees : List FeeRow
deriving DecidableEq, Repr

/-- The derived outputs, given the filtered TVL rows.  Sums treat null
cells as 0, as pandas `Series.sum` does; the total market cap falls back
to 0 when the `Market Cap (USD)` column is missing (`app.py` line 115). -/
def mkOutputs (ftvl : List TvlRow) (rev : List RevRow) (fees : List FeeRow)
    (market : MarketTable) : Outputs :=
  let keys := ftvl.map (·.protocol)
  let ffees := fees.filter fun r => decide (r.protocol ∈ keys)
  let frev := rev.filter fun r => decide (r.protocol ∈ keys)
  let fmkt := market.rows.filter fun r => decide (r.protocol ∈ keys)
  let totalTVL := (ftvl.map fun r => r.tvl.getD 0).sum
  let totalMarketCap :=
    if market.hasMarketCap then (fmkt.map fun r => r.marketCap.getD 0).sum else 0
  { filtered_tvl := ftvl
    filtered_fees := ffees
    filtered_revenue := frev
    filtered_market := fmkt
    protocolCount := ftvl.length
    totalTVL := totalTVL
    totalMarketCap := totalMarketCap
    totalTVLDisplay := format_currency (some totalTVL)
    totalMarketCapDisplay := format_currency (some totalMarketCap)
    overview := mergeLeft ftvl fmkt
    top_tvl := nlargestBy 10 (·.tvl) ftvl
    top_revenue := nlargestBy 10 (·.rev24h) frev
    top_fees := nlargestBy 10 (·.fee24h) ffees }

/-- One run of the filter-join-rank engine (`app.py` lines 81-162) on the
four tables and the two (already defaulted) multiselect selections.  The
`Protocol` column of the TVL table is read first (line 81), so its absence
aborts the run before any output exists. -/
def runEngine (tvl : TvlTable) (rev : List RevRow) (fees : List FeeRow)
    (market : MarketTable) (selProts selCats : List String) :
    Except String Outputs :=
  if tvl.hasProtocol = false then .error protocolKeyError
  else
    (filteredTvlE tvl selProts selCats).bind fun ftvl =>
      .ok (mkOutputs ftvl rev fees market)

/-- Claim C3: currency formatter boundary values.  `format_currency` sends
0 to `"$0"`, 999 to `"$999.00"`, one thousand to `"$1.00K"`, one million
to `"$1.00M"`, one billion to `"$1.00B"`, and a null amount — the model of
both Python `None` and float NaN, which line 51 of `app.py` treats
identically — to `"$0"`. -/
theorem c3_format_currency_boundaries :
    format_currency (some 0) = "$0" ∧
    format_currency (some 999) = "$999.00" ∧
    format_currency (some 1000) = "$1.00K" ∧
    format_currency (some 1000000) = "$1.00M" ∧
    format_currency (some 1000000000) = "$1.00B" ∧
    format_currency none = "$0" :=
  ⟨by with_unfolding_all rfl, by with_unfolding_all rfl, by with_unfolding_all rfl,
   by with_unfolding_all rfl, by with_unfolding_all rfl, rfl⟩

/-- Claim C9 (implicit): for every negative amount the threshold tests of
`format_currency` — which compare the signed value, not the magnitude —
all fail, so the result is the plain two-decimal rendering
of a dollar sign followed by the signed two-decimal value, with no
B/M/K suffix. -/
theorem c9_negative_amounts (a : ℚ) (ha : a < 0) :
    format_currency (some a) = "$" ++ formatFixed2 a := by
  have h0 : ¬(a = 0) := ne_of_lt ha
  have h1 : ¬(a ≥ 1000000000) := not_le.mpr (ha.trans_le (by norm_num))
  have h2 : ¬(a ≥ 1000000) := not_le.mpr (ha.trans_le (by norm_num))
  have h3 : ¬(a ≥ 1000) := not_le.mpr (ha.trans_le (by norm_num))
  rw [format_currency, if_neg h0, if_neg h1, if_neg h2, if_neg h3]

/-- Concrete instance of claim C9 at -2000000000, the example named by the
claim: the rendering keeps the sign and gains no suffix. -/
theorem c9_negative_amounts_witness :
    (-2000000000 : ℚ) < 0 ∧
      format_currency (some (-2000000000)) = "$-2000000000.00" :=
  ⟨by norm_num,
   (c9_negative_amounts (-2000000000) (by norm_num)).trans (by with_unfolding_all rfl)⟩

/-- Claim C1: the protocol-membership filter of `app.py` line 90 keeps a
sublist of the original rows (hence original row order and, the rows
being unchanged records, all original columns), and the `Protocol` values
of the result are exactly the original `Protocol` values that lie in the
selected-protocol set — no extras, no omissions. -/
theorem c1_filter_correctness (rows : List TvlRow) (selProts : List String) :
    List.Sublist (filterByProtocol rows selProts) rows ∧
    ∀ p : String,
      p ∈ (filterByProtocol rows selProts).map (·.protocol) ↔
        p ∈ rows.map (·.protocol) ∧ p ∈ selProts := by
  refine ⟨List.filter_sublist _, fun p => ?_⟩
  simp only [filterByProtocol, List.mem_map, List.mem_filter, decide_eq_true_eq]
  constructor
  · rintro ⟨r, ⟨hr, hsel⟩, rfl⟩
    exact ⟨⟨r, hr, rfl⟩, hsel⟩
  · rintro ⟨⟨r, hr, rfl⟩, hsel⟩
    exact ⟨r, ⟨hr, hsel⟩, rfl⟩

/-- A one-row revenue table whose ranking cell (`24h Revenue (USD)`) is
null. -/
def revRowsWithNull : List RevRow := [⟨"A", none, none, none, none⟩]

/-- Counterexample to claim C2 as stated: pandas `nlargest` drops rows
whose ranking cell is null, so on a one-row table with a null
`24h Revenue (USD)` the ranked result is empty — its length is 0, not
`min 10 1 = 1`. -/
theorem c2_counterexample :
    ¬ (nlargestBy 10 (·.rev24h) revRowsWithNull).length =
        min 10 revRowsWithNull.length := by decide

theorem length_insertDescBy {α : Type} (key : α → ℚ) (x : α) (l : List α) :
    (insertDescBy key x l).length = l.length + 1 := by
  induction l with
  | nil => rfl
  | cons y ys ih => by_cases h : key y ≤ key x <;> simp [insertDescBy, h, ih]

theorem perm_insertDescBy {α : Type} (key : α → ℚ) (x : α) (l : List α) :
    (insertDescBy key x l).Perm (x :: l) := by
  induction l with
  | nil => exact List.Perm.refl _
  | cons y ys ih =>
    by_cases h : key y ≤ key x
    · simp [insertDescBy, h]
    · simp only [insertDescBy, if_neg h]
      exact (ih.cons y).trans (List.Perm.swap x y ys)

theorem sorted_insertDescBy {α : Type} (key : α → ℚ) (x : α) (l : List α)
    (hl : l.Pairwise fun a b => key b ≤ key a) :
    (insertDescBy key x l).Pairwise fun a b => key b ≤ key a := by
  induction l with
  | nil => simp [insertDescBy]
  | cons y ys ih =>
    rcases List.pairwise_cons.mp hl with ⟨hy, hys⟩
    by_cases h : key y ≤ key x
    · simp only [insertDescBy, if_pos h]
      refine List.pairwise_cons.mpr ⟨?_, hl⟩
      intro b hb
      rcases List.mem_cons.mp hb with rfl | hb'
      · exact h
      · exact (hy b hb').trans h
    · simp only [insertDescBy, if_neg h]
      refine List.pairwise_cons.mpr ⟨?_, ih hys⟩
      intro b hb
      rcases List.mem_cons.mp ((perm_insertDescBy key x ys).mem_iff.mp hb) with rfl | hb'
      · exact le_of_not_le h
      · exact hy b hb'

theorem filter_insertDescBy {α : Type} (key : α → ℚ) (x : α) (l : List α) (c : ℚ) :
    (insertDescBy key x l).filter (fun y => decide (key y = c)) =
      if key x = c then x :: l.filter (fun y => decide (key y = c))
      else l.filter (fun y => decide (key y = c)) := by
  induction l with
  | nil => by_cases hx : key x = c <;> simp [insertDescBy, hx]
  | cons y ys ih =>
    by_cases h : key y ≤ key x
    · simp only [insertDescBy, if_pos h]
      by_cases hx : key x = c <;> simp [List.filter_cons, hx]
    · have hxy : key x < key y := lt_of_not_le h
      simp only [insertDescBy, if_neg h]
      by_cases hx : key x = c
      · have hy : ¬ key y = c := fun hyc => absurd (hx ▸ hyc ▸ hxy) (lt_irrefl _)
        simp [List.filter_cons, hy, ih, hx]
      · by_cases hy : key y = c <;> simp [List.filter_cons, hy, ih, hx]

theorem length_sortDescBy {α : Type} (key : α → ℚ) (l : List α) :
    (sortDescBy key l).length = l.length := by
  induction l with
  | nil => rfl
  | cons x xs ih => simp [sortDescBy, length_insertDescBy, ih] at ih ⊢

theorem perm_sortDescBy {α : Type} (key : α → ℚ) (l : List α) :
    (sortDescBy key l).Perm l := by
  induction l with
  | nil => exact List.Perm.refl _
  | cons x xs ih =>
    exact (perm_insertDescBy key x (sortDescBy key xs)).trans (ih.cons x)

theorem sorted_sortDescBy {α : Type} (key : α → ℚ) (l : List α) :
    (sortDescBy key l).Pairwise fun a b => key b ≤ key a := by
  induction l with
  | nil => simp [sortDescBy]
  | cons x xs ih => exact sorted_insertDescBy key x _ ih

theorem filter_sortDescBy {α : Type} (key : α → ℚ) (l : List α) (c : ℚ) :
    (sortDescBy key l).filter (fun y => decide (key y = c)) =
      l.filter (fun y => decide (key y = c)) := by
  induction l with
  | nil => rfl
  | cons x xs ih =>
    show (insertDescBy key x (sortDescBy key xs)).filter _ = _
    rw [filter_insertDescBy]
    by_cases hx : key x = c <;> simp [List.filter_cons, hx, ih]

/-- The amended top-N specification for one ranking column `key` over a
filtered table `l`: the ranked result has length `min 10 (number of rows
whose ranking cell is non-null)`, is sorted descending by the ranking
column, consists of rows of `l`, and — for ties and for duplicate key
values generally — lists the rows with any given key value in their
original relative order (pandas `keep='first'` stability). -/
def TopNOk {α : Type} (key : α → Option ℚ) (l : List α) : Prop :=
  (nlargestBy 10 key l).length = min 10 (l.filter fun r => (key r).isSome).length ∧
  (nlargestBy 10 key l).Pairwise (fun a b => (key b).getD 0 ≤ (key a).getD 0) ∧
  (∀ r ∈ nlargestBy 10 key l, r ∈ l) ∧
  ∀ c : ℚ, ((nlargestBy 10 key l).filter fun r => decide (key r = some c)) <+:
    (l.filter fun r => decide (key r = some c))

theorem topNOk {α : Type} (key : α → Option ℚ) (l : List α) : TopNOk key l := by
  refine ⟨?_, ?_, ?_, ?_⟩
  · rw [nlargestBy, List.length_take, length_sortDescBy]
  · exact (sorted_sortDescBy _ _).sublist (List.take_sublist _ _)
  · intro r hr
    have h1 : r ∈ sortDescBy (fun r => (key r).getD 0) (l.filter fun r => (key r).isSome) :=
      (List.take_sublist _ _).mem hr
    exact List.mem_of_mem_filter ((perm_sortDescBy _ _).mem_iff.mp h1)
  · intro c
    have hmem : ∀ r ∈ nlargestBy 10 key l, (key r).isSome := by
      intro r hr
      have h1 := (List.take_sublist _ _).mem hr
      have h2 := (perm_sortDescBy _ _).mem_iff.mp h1
      simpa using List.of_mem_filter h2
    have e1 : ((nlargestBy 10 key l).filter fun r => decide (key r = some c)) =
        ((nlargestBy 10 key l).filter fun r => decide ((key r).getD 0 = c)) := by
      refine List.filter_congr fun r hr => ?_
      rcases Option.isSome_iff_exists.mp (hmem r hr) with ⟨v, hv⟩
      simp [hv]
    have e2 : ((l.filter fun r => (key r).isSome).filter fun r => decide ((key r).getD 0 = c)) =
        ((l.filter fun r => (key r).isSome).filter fun r => decide (key r = some c)) := by
      refine List.filter_congr fun r hr => ?_
      rcases Option.isSome_iff_exists.mp (by simpa using List.of_mem_filter hr) with ⟨v, hv⟩
      simp [hv]
    have e3 : ((l.filter fun r => (key r).isSome).filter fun r => decide (key r = some c)) =
        (l.filter fun r => decide (key r = some c)) := by
      rw [List.filter_filter]
      refine List.filter_congr fun r hr => ?_
      cases hk : key r <;> simp [hk]
    rw [e1, ← e3, ← e2, ← filter_sortDescBy (fun r => (key r).getD 0)
      (l.filter fun r => (key r).isSome) c]
    exact List.IsPrefix.filter _ (List.take_prefix _ _)

/-- Claim C2, amended: for each of the three ranking columns the ranked
result drawn from the corresponding filtered table has length
`min 10 (number of rows with a non-null ranking cell)` — pandas `nlargest`
drops null rows, so on tables with nulls in the ranking column the bound
is by the non-null row count, not the row count — is sorted descending by
that column with ties in original row order, and consists of rows of the
filtered table. -/
theorem c2_topn_bound (ftvl : List TvlRow) (frev : List RevRow) (ffees : List FeeRow) :
    TopNOk (·.tvl) ftvl ∧ TopNOk (·.rev24h) frev ∧ TopNOk (·.fee24h) ffees :=
  ⟨topNOk _ ftvl, topNOk _ frev, topNOk _ ffees⟩

/-- The single overview row the left join produces for the TVL row `t`
when the market keys are unique: the market columns come from the first
(hence only) matching market row, or are null when no match exists. -/
def overviewRowFor (fmkt : List MarketRow) (t : TvlRow) : OverviewRow :=
  match fmkt.find? (fun m => decide (m.protocol = t.protocol)) with
  | some m => ⟨t.protocol, t.category, t.tvl, m.marketCap, m.price⟩
  | none => ⟨t.protocol, t.category, t.tvl, none, none⟩

theorem filter_key_of_nodup (fmkt : List MarketRow) (p : String)
    (h : (fmkt.map (·.protocol)).Nodup) :
    fmkt.filter (fun m => decide (m.protocol = p)) =
      ((fmkt.find? fun m => decide (m.protocol = p)).map fun m => [m]).getD [] := by
  induction fmkt with
  | nil => rfl
  | cons m0 rest ih =>
    have h' := h
    rw [List.map_cons, List.nodup_cons] at h'
    obtain ⟨h1, h2⟩ := h'
    by_cases hm : m0.protocol = p
    · have hrest : rest.filter (fun m => decide (m.protocol = p)) = [] := by
        refine List.filter_eq_nil_iff.mpr fun m hm' => ?_
        simp only [decide_eq_true_eq]
        intro he
        apply h1
        rw [hm, ← he]
        exact List.mem_map_of_mem (·.protocol) hm'
      simp [List.filter_cons, List.find?_cons, hm, hrest]
    · simp [List.filter_cons, List.find?_cons, hm, ih h2]

/-- Claim C4: when the filtered market table's `Protocol` values are
pairwise distinct — the spec's data-model invariant that the tables are
keyed by protocol name — the left join of `app.py` line 127 is exactly one
output row per filtered-TVL row, in order: the row's TVL fields, plus the
market fields of its unique match, or null market fields when no market
row matches; in particular no TVL row is dropped or duplicated, and the
output length equals the filtered TVL row count. -/
theorem c4_join_completeness (ftvl : List TvlRow) (fmkt : List MarketRow)
    (h : (fmkt.map (·.protocol)).Nodup) :
    mergeLeft ftvl fmkt = ftvl.map (overviewRowFor fmkt) ∧
    (mergeLeft ftvl fmkt).length = ftvl.length := by
  have hmain : mergeLeft ftvl fmkt = ftvl.map (overviewRowFor fmkt) := by
    induction ftvl with
    | nil => rfl
    | cons t ts ih =>
      show (let ms := fmkt.filter fun m => decide (m.protocol = t.protocol)
            if ms.isEmpty then [⟨t.protocol, t.category, t.tvl, none, none⟩]
            else ms.map fun m => ⟨t.protocol, t.category, t.tvl, m.marketCap, m.price⟩) ++
          mergeLeft ts fmkt = _
      rw [List.map_cons, ← ih]
      have hf := filter_key_of_nodup fmkt t.protocol h
      cases hfind : fmkt.find? (fun m => decide (m.protocol = t.protocol)) with
      | none =>
        rw [hfind] at hf
        have hf' : fmkt.filter (fun m => decide (m.protocol = t.protocol)) = [] := hf
        simp [hf', overviewRowFor, hfind]
      | some m =>
        rw [hfind] at hf
        have hf' : fmkt.filter (fun m' => decide (m'.protocol = t.protocol)) = [m] := hf
        simp [hf', overviewRowFor, hfind]
  exact ⟨hmain, by rw [hmain, List.length_map]⟩

/-- Concrete instance of claim C4: a TVL row with no matching market row
produces exactly one overview row, with null market columns. -/
theorem c4_join_completeness_witness :
    mergeLeft [⟨"A", none, some 1⟩] [⟨"B", some 7, some 2⟩] =
      [⟨"A", none, some 1⟩].map (overviewRowFor [⟨"B", some 7, some 2⟩]) ∧
    (mergeLeft [⟨"A", none, some 1⟩] [⟨"B", some 7, some 2⟩]).length = 1 :=
  c4_join_completeness [⟨"A", none, some 1⟩] [⟨"B", some 7, some 2⟩] (by decide)

theorem selCats_hasCategory (t : TvlTable) (selC : List String)
    (hsel : ∀ c ∈ selC, c ∈ categoriesOf t) (hne : selC ≠ []) :
    t.hasCategory = true := by
  obtain ⟨c, hc⟩ := List.exists_mem_of_ne_nil selC hne
  have h1 := hsel c hc
  cases hb : t.hasCategory
  · simp [categoriesOf, hb] at h1
  · rfl

theorem selCats_nil_of_no_category (t : TvlTable) (selC : List String)
    (hsel : ∀ c ∈ selC, c ∈ categoriesOf t) (hnc : t.hasCategory = false) :
    selC = [] := by
  cases selC with
  | nil => rfl
  | cons c cs =>
    have h1 := hsel c (List.mem_cons_self c cs)
    simp [categoriesOf, hnc] at h1

theorem filteredTvlE_ok (t : TvlTable) (selP selC : List String)
    (hsel : ∀ c ∈ selC, c ∈ categoriesOf t) :
    filteredTvlE t selP selC = .ok (tvlAfterFilters t selP selC) := by
  by_cases h : selC.isEmpty
  · simp [filteredTvlE, tvlAfterFilters, h]
  · have hne : selC ≠ [] := fun hn => by simp [hn] at h
    have hc := selCats_hasCategory t selC hsel hne
    simp [filteredTvlE, tvlAfterFilters, h, hc]

theorem runEngine_ok (tvl : TvlTable) (rev : List RevRow) (fees : List FeeRow)
    (market : MarketTable) (selP selC : List String)
    (hp : tvl.hasProtocol = true)
    (hsel : ∀ c ∈ selC, c ∈ categoriesOf tvl) :
    runEngine tvl rev fees market selP selC =
      .ok (mkOutputs (tvlAfterFilters tvl selP selC) rev fees market) := by
  rw [runEngine, if_neg (by simp [hp]), filteredTvlE_ok tvl selP selC hsel]
  rfl

theorem tvlAfterFilters_nil_sel (t : TvlTable) (selC : List String) :
    tvlAfterFilters t [] selC = [] := by
  by_cases h : selC.isEmpty <;> simp [tvlAfterFilters, filterByProtocol, h]

theorem mkOutputs_empty_fields (rev : List RevRow) (fees : List FeeRow)
    (market : MarketTable) :
    (mkOutputs [] rev fees market).filtered_tvl = [] ∧
    (mkOutputs [] rev fees market).filtered_fees = [] ∧
    (mkOutputs [] rev fees market).filtered_revenue = [] ∧
    (mkOutputs [] rev fees market).filtered_market = [] ∧
    (mkOutputs [] rev fees market).protocolCount = 0 ∧
    (mkOutputs [] rev fees market).totalTVL = 0 ∧
    (mkOutputs [] rev fees market).totalMarketCap = 0 := by
  refine ⟨rfl, ?_, ?_, ?_, rfl, rfl, ?_⟩
  · simp [mkOutputs]
  · simp [mkOutputs]
  · simp [mkOutputs]
  · cases hmc : market.hasMarketCap <;> simp [mkOutputs, hmc]

/-- A one-row TVL table with a Category column, for concrete runs. -/
def tvlA : TvlTable := ⟨true, true, [⟨"A", some "DEX", some 500⟩]⟩

/-- A market table that has both optional columns but no rows. -/
def mktEmpty : MarketTable := ⟨true, true, []⟩

/-- A one-row TVL table without a Category column. -/
def tvlNoCat : TvlTable := ⟨true, false, [⟨"A", none, some 5⟩]⟩

/-- A TVL table lacking the required Protocol column. -/
def tvlNoProt : TvlTable := ⟨false, true, []⟩

/-- Counterexample to claim C5 as stated: with a non-empty
selected-protocol set and an empty selected-category set, the engine does
not produce empty tables and zero KPIs — `if selected_categories:` on
`app.py` line 91 is falsy for an empty list, so the category filter is
skipped and the protocol-filtered row survives. -/
theorem c5_counterexample :
    ∃ o : Outputs, runEngine tvlA [] [] mktEmpty ["A"] [] = .ok o ∧
      o.protocolCount = 1 ∧ o.filtered_tvl ≠ [] := by
  refine ⟨_, runEngine_ok tvlA [] [] mktEmpty ["A"] [] rfl (by simp), ?_, ?_⟩
  · decide
  · decide

/-- Claim C5, amended: an empty selected-protocol set yields empty
filtered tables (all four) and zero-valued KPIs without an error; an empty
selected-category set, however, does not empty anything — the category
filter is skipped entirely and the filtered TVL table equals the
protocol-only-filtered result. -/
theorem c5_empty_selection (tvl : TvlTable) (rev : List RevRow)
    (fees : List FeeRow) (market : MarketTable) (selProts selCats : List String)
    (hp : tvl.hasProtocol = true)
    (hsel : ∀ c ∈ selCats, c ∈ categoriesOf tvl) :
    (∃ o : Outputs, runEngine tvl rev fees market [] selCats = .ok o ∧
        o.filtered_tvl = [] ∧ o.filtered_fees = [] ∧ o.filtered_revenue = [] ∧
        o.filtered_market = [] ∧ o.protocolCount = 0 ∧ o.totalTVL = 0 ∧
        o.totalMarketCap = 0) ∧
    (∃ o : Outputs, runEngine tvl rev fees market selProts [] = .ok o ∧
        o.filtered_tvl = filterByProtocol tvl.rows selProts) := by
  constructor
  · refine ⟨_, runEngine_ok tvl rev fees market [] selCats hp hsel, ?_⟩
    rw [tvlAfterFilters_nil_sel]
    exact mkOutputs_empty_fields rev fees market
  · refine ⟨_, runEngine_ok tvl rev fees market selProts [] hp (by simp), ?_⟩
    simp [mkOutputs, tvlAfterFilters]

/-- Concrete instance of claim C5 (amended): on a one-row table, an empty
protocol selection empties everything, and an empty category selection
with protocol selection of just A leaves the protocol-filtered row. -/
theorem c5_empty_selection_witness :
    (∃ o : Outputs, runEngine tvlA [] [] mktEmpty [] ["DEX"] = .ok o ∧
        o.filtered_tvl = [] ∧ o.filtered_fees = [] ∧ o.filtered_revenue = [] ∧
        o.filtered_market = [] ∧ o.protocolCount = 0 ∧ o.totalTVL = 0 ∧
        o.totalMarketCap = 0) ∧
    (∃ o : Outputs, runEngine tvlA [] [] mktEmpty ["A"] [] = .ok o ∧
        o.filtered_tvl = filterByProtocol tvlA.rows ["A"]) :=
  c5_empty_selection tvlA [] [] mktEmpty ["A"] ["DEX"] rfl (by decide)

/-- Claim C6: when the TVL table has no Category column the category
choices (lines 84-87) are empty, so any selectable category set is empty,
the category-filtering step is skipped, and the engine returns — without
error — outputs built from the protocol-only-filtered table. -/
theorem c6_category_noop (tvl : TvlTable) (rev : List RevRow)
    (fees : List FeeRow) (market : MarketTable) (selProts selCats : List String)
    (hp : tvl.hasProtocol = true) (hnc : tvl.hasCategory = false)
    (hsel : ∀ c ∈ selCats, c ∈ categoriesOf tvl) :
    runEngine tvl rev fees market selProts selCats =
      .ok (mkOutputs (filterByProtocol tvl.rows selProts) rev fees market) := by
  have h0 : selCats = [] := selCats_nil_of_no_category tvl selCats hsel hnc
  subst h0
  rw [runEngine_ok tvl rev fees market selProts [] hp (by simp)]
  rfl

/-- Concrete instance of claim C6: a table without a Category column runs
without error and its filtered table is the protocol-only result. -/
theorem c6_category_noop_witness :
    runEngine tvlNoCat [] [] mktEmpty ["A"] [] =
      .ok (mkOutputs (filterByProtocol tvlNoCat.rows ["A"]) [] [] mktEmpty) :=
  c6_category_noop tvlNoCat [] [] mktEmpty ["A"] [] rfl rfl (by simp)

/-- Claim C7: the engine raises if and only if the TVL table lacks the
`Protocol` column; the error names the missing column (`protocolKeyError`
is the `KeyError` naming Protocol), and because the run returns `Except`,
no partial output exists on that path.  With the column present the run
returns outputs, whatever optional columns (Category, Market Cap, Current
Price — the presence flags of `tvl` and `market`) are missing. -/
theorem c7_missing_key_column (tvl : TvlTable) (rev : List RevRow)
    (fees : List FeeRow) (market : MarketTable) (selProts selCats : List String)
    (hsel : ∀ c ∈ selCats, c ∈ categoriesOf tvl) :
    (tvl.hasProtocol = false ↔
      runEngine tvl rev fees market selProts selCats = .error protocolKeyError) ∧
    (tvl.hasProtocol = true →
      ∃ o : Outputs, runEngine tvl rev fees market selProts selCats = .ok o) := by
  constructor
  · constructor
    · intro h
      simp [runEngine, h]
    · intro h
      cases hb : tvl.hasProtocol
      · rfl
      · rw [runEngine_ok tvl rev fees market selProts selCats hb hsel] at h
        exact absurd h (by simp)
  · intro hp
    exact ⟨_, runEngine_ok tvl rev fees market selProts selCats hp hsel⟩

/-- Concrete instance of claim C7: a TVL table without a Protocol column
makes the run fail with the `KeyError` naming Protocol. -/
theorem c7_missing_key_column_witness :
    runEngine tvlNoProt [] [] mktEmpty [] [] = .error protocolKeyError :=
  (c7_missing_key_column tvlNoProt [] [] mktEmpty [] [] (by simp)).1.mp rfl

/-- The TVL table of the end-to-end scenario of claim C8. -/
def tvlC8 : TvlTable :=
  ⟨true, true, [⟨"A", some "Cat1", some 500⟩, ⟨"B", some "Cat2", some 2500000000⟩]⟩

/-- The revenue table of the end-to-end scenario of claim C8. -/
def revC8 : List RevRow := [⟨"A", some 10, some 70, some 300, some 1000⟩]

/-- The (row-less) market table of the end-to-end scenario of claim C8. -/
def mktC8 : MarketTable := ⟨true, true, []⟩

/-- Claim C8, the end-to-end scenario: protocols A and B and categories
Cat1 and Cat2 selected over the two-row TVL table give protocol count 2,
total TVL displayed as `$2.50B`, top-TVL ranking `[B, A]` (descending),
and top-revenue ranking `[A]` — B has no revenue row, so it cannot appear. -/
theorem c8_end_to_end :
    ∃ o : Outputs,
      runEngine tvlC8 revC8 [] mktC8 ["A", "B"] ["Cat1", "Cat2"] = .ok o ∧
      o.protocolCount = 2 ∧ o.totalTVLDisplay = "$2.50B" ∧
      o.top_tvl.map (·.protocol) = ["B", "A"] ∧
      o.top_revenue.map (·.protocol) = ["A"] := by
  refine ⟨_, runEngine_ok tvlC8 revC8 [] mktC8 ["A", "B"] ["Cat1", "Cat2"] rfl (by with_unfolding_all decide),
    ?_, ?_, ?_, ?_⟩
  · decide
  · with_unfolding_all rfl
  · with_unfolding_all rfl
  · with_unfolding_all rfl

/-- Claim C10 (implicit): the selected-category set is always a subset of
the category choices, which are empty when the TVL table has no Category
column; hence a non-empty selection implies the column exists, and no run
of the engine ever fails with the `KeyError` naming Category — the
category-filter branch never touches a missing column. -/
theorem c10_category_filter_safety (tvl : TvlTable) (rev : List RevRow)
    (fees : List FeeRow) (market : MarketTable) (selProts selCats : List String)
    (hsel : ∀ c ∈ selCats, c ∈ categoriesOf tvl) :
    (selCats ≠ [] → tvl.hasCategory = true) ∧
    runEngine tvl rev fees market selProts selCats ≠ .error categoryKeyError := by
  refine ⟨fun hne => selCats_hasCategory tvl selCats hsel hne, ?_⟩
  cases hb : tvl.hasProtocol
  · intro h
    simp only [runEngine, hb, if_pos] at h
    have : protocolKeyError = categoryKeyError := by
      exact Except.error.inj h
    exact absurd this (by decide)
  · rw [runEngine_ok tvl rev fees market selProts selCats hb hsel]
    simp

/-- Concrete instance of claim C10: a valid non-empty category selection
runs without the Category `KeyError` on a table that has the column. -/
theorem c10_category_filter_safety_witness :
    (["Cat1"] ≠ [] → tvlC8.hasCategory = true) ∧
    runEngine tvlC8 revC8 [] mktC8 ["A"] ["Cat1"] ≠ .error categoryKeyError :=
  c10_category_filter_safety tvlC8 revC8 [] mktC8 ["A"] ["Cat1"] (by with_unfolding_all decide)
